import Mathlib

/-
Verification of the diceware passphrase generator (src/diceware.c, src/main.c).

The development shallowly embeds the program:
* the SQLite database is a committed state `DB` (does the `diceware` table
  exist, and its rows in insertion order);
* the word-list file handed to `dw_create` is a `List Char`, and the
  `fscanf("%d %63s")` calls of `_dw_populate` are embedded character by
  character (whitespace skipping, optional sign, maximal digit munch,
  at most 63 non-whitespace characters per word token);
* calls to SQLite whose success is not determined by the database state
  (sqlite3_open, BEGIN/END/ROLLBACK TRANSACTION, fopen) are driven by a
  fault environment `Env`;
* the `do { rc = sqlite3_step(...); } while (rc == SQLITE_BUSY)` retry
  loops are embedded as `stepRetry` over the backend's result sequence;
* the dice rolls of `dw_generate` (`arc4random_uniform(MAX_DIE_ROLL)`)
  are an oracle list of raw values `< 6`, and each `fprintf` call is an
  atomic write guarded by a write-fault oracle.
-/

/-- One row of the `diceware` table: `(id INTEGER PRIMARY KEY, word TEXT)`.
The id is an `Int` because `_dw_populate` reads it with `fscanf("%d ...)`. -/
structure Row where
  id : Int
  word : String
deriving DecidableEq

/-- Committed state of the SQLite database file: whether the `diceware`
table exists, and its rows in insertion order. -/
structure DB where
  hasTable : Bool
  rows : List Row
deriving DecidableEq

/-- The entries a query can see: rows of the `diceware` table if it exists,
nothing otherwise (querying a missing table is an error in SQLite). -/
def queryable (db : DB) : List Row :=
  if db.hasTable then db.rows else []

/- ---------------------------------------------------------------------
Character-level embedding of `fscanf(input, "%d %63s", &index, word)`
(diceware.c:197).
--------------------------------------------------------------------- -/

/-- C `isspace`: the whitespace characters skipped by `%d` and `%s`. -/
def isSpaceC (c : Char) : Bool :=
  c == ' ' || c == '\t' || c == '\n' || c == '\x0b' || c == '\x0c' || c == '\r'

/-- C `isdigit`. -/
def isDigitC (c : Char) : Bool :=
  '0' ≤ c && c ≤ '9'

/-- Value of a string of decimal digits. -/
def digitsVal (ds : List Char) : Nat :=
  ds.foldl (fun n c => 10 * n + (c.toNat - '0'.toNat)) 0

/-- A maximal nonempty run of decimal digits and the input after it;
fails if the input does not start with a digit. -/
def scanDigits (l : List Char) : Option (Nat × List Char) :=
  if (l.takeWhile isDigitC).isEmpty then none
  else some (digitsVal (l.takeWhile isDigitC), l.dropWhile isDigitC)

/-- `%d`: skip whitespace, optional sign, then a maximal nonempty run of
decimal digits; fails (conversion failure or EOF) if no digit is found.
Returns the value and the unconsumed input. -/
def scanInt (l : List Char) : Option (Int × List Char) :=
  match l.dropWhile isSpaceC with
  | [] => none
  | c :: t =>
    if c == '-' then (scanDigits t).map (fun p => (-(p.1 : Int), p.2))
    else if c == '+' then (scanDigits t).map (fun p => ((p.1 : Int), p.2))
    else (scanDigits (c :: t)).map (fun p => ((p.1 : Int), p.2))

/-- `%63s`: skip whitespace, then read at most 63 non-whitespace
characters (at least one); fails only at end of input. Characters of a
longer token beyond the 63rd are left in the input. -/
def scanTok (l : List Char) : Option (String × List Char) :=
  match l.dropWhile isSpaceC with
  | [] => none
  | c :: t =>
    let tk := ((c :: t).takeWhile (fun a => !isSpaceC a)).take 63
    some (⟨tk⟩, (c :: t).drop tk.length)

/-- One `fscanf(input, "%d %63s", ...)` call: returns the parsed
`(index, word)` record and the rest of the input iff the call returns 2. -/
def scanRecord (l : List Char) : Option (Int × String × List Char) :=
  match scanInt l with
  | none => none
  | some (n, r1) =>
    match scanTok r1 with
    | none => none
    | some (w, r2) => some (n, w, r2)

/- ---------------------------------------------------------------------
Insertion and population (diceware.c:130-237).
--------------------------------------------------------------------- -/

/-- `_dw_insert` (diceware.c:130-176): `INSERT INTO diceware (id, word)
VALUES (?, ?)`. Since `id` is `INTEGER PRIMARY KEY` (the CREATE_TABLES
schema, diceware.c:62-63), the step fails with a constraint violation iff
a row with the same id already exists; otherwise the row is appended.
Transient SQLITE_BUSY results are retried away (see `stepRetry`). -/
def _dw_insert (rows : List Row) (n : Int) (w : String) : Option (List Row) :=
  if rows.any (fun r => r.id == n) then none
  else some (rows ++ [⟨n, w⟩])

/-- The `for (;;)` loop of `_dw_populate` (diceware.c:194-215), acting on
the in-transaction rows: scan a record; on scan failure stop; otherwise
try to insert it, incrementing `count` on success and stopping on
insertion failure. `fuel` bounds the recursion; every successful scan
consumes at least one character, so `input.length + 1` is always enough. -/
def populateGo : Nat → List Char → List Row → Nat → List Row × Nat
  | 0, _, rows, count => (rows, count)
  | fuel + 1, input, rows, count =>
    match scanRecord input with
    | none => (rows, count)
    | some (n, w, rest) =>
      match _dw_insert rows n w with
      | none => (rows, count)
      | some rows2 => populateGo fuel rest rows2 (count + 1)

/-- `_dw_populate`'s loop run on the whole word-list file. -/
def populateLoop (input : List Char) (rows : List Row) (count : Nat) : List Row × Nat :=
  populateGo (input.length + 1) input rows count

/-- `_dw_populate` (diceware.c:178-237): `fileOk` models whether
`fopen(path, "r")` succeeds. Returns the rows inserted into the open
transaction together with the success flag: the function returns 0 iff at
least 7776 records were parsed and inserted (`count < 7776` is an error
whatever caused the loop to stop). A read error mid-file behaves like a
truncated input. -/
def _dw_populate (fileOk : Bool) (input : List Char) : List Row × Bool :=
  if !fileOk then ([], false)
  else
    let p := populateLoop input [] 0
    (p.1, decide (7776 ≤ p.2))

/-- The record stream `_dw_populate` sees: repeated `fscanf("%d %63s")`
until the first call that does not return 2 (malformed input or EOF
terminates the stream; nothing is skipped). -/
def recordsGo : Nat → List Char → List (Int × String)
  | 0, _ => []
  | fuel + 1, input =>
    match scanRecord input with
    | none => []
    | some (n, w, rest) => (n, w) :: recordsGo fuel rest

/-- All records of a word-list file, up to the first scan failure. -/
def records (input : List Char) : List (Int × String) :=
  recordsGo (input.length + 1) input

/-- The population loop factored through its record stream: insert each
record in order, stopping at the first insertion failure. -/
def processRecords : List (Int × String) → List Row → Nat → List Row × Nat
  | [], rows, count => (rows, count)
  | (n, w) :: rs, rows, count =>
    match _dw_insert rows n w with
    | none => (rows, count)
    | some rows2 => processRecords rs rows2 (count + 1)

/- ---------------------------------------------------------------------
The busy-retry loops (diceware.c:98-101, 163-166, 289-292, 309-312).
--------------------------------------------------------------------- -/

/-- Results of one `sqlite3_step`/`sqlite3_exec` call, as distinguished by
the code: a row was produced, the statement finished, the storage was
transiently busy, or a non-retryable error occurred. -/
inductive StepRc where
  | row
  | done
  | busy
  | err
deriving DecidableEq

/-- `do { rc = sqlite3_step(...); } while (rc == SQLITE_BUSY)`: given the
sequence of results the backend would return on successive attempts, the
loop's result is the first non-busy one; `none` means every attempt is
busy and the loop never returns. -/
def stepRetry (steps : List StepRc) : Option StepRc :=
  steps.find? (fun r => !(r == StepRc.busy))

/-- The decisive (non-busy) result the backend eventually gives a
`GET_WORD` query: a row iff some row matches, SQLITE_DONE otherwise. -/
def lookupStep (db : DB) (idx : Nat) : StepRc :=
  if ((queryable db).find? (fun r => r.id == (idx : Int))).isSome then .row else .done

/- ---------------------------------------------------------------------
Lookup (diceware.c:70-128).
--------------------------------------------------------------------- -/

/-- The word the `GET_WORD` query returns for `idx`: the first row of the
`diceware` table whose id matches, if any (`SQLITE_DONE`, reported as
"incomplete database", otherwise). -/
def storedWord (db : DB) (idx : Nat) : Option String :=
  ((queryable db).find? (fun r => r.id == (idx : Int))).map Row.word

/-- `_dw_get_word` (diceware.c:70-128) as called by `dw_generate`: the
word is copied with `strncpy(out, word, len)` into the caller's 32-byte
buffer (`char word[32]`, diceware.c:367), so at most 32 characters are
copied. (For a stored word of 32 or more bytes the C buffer is left
without a terminator and printing it is undefined behavior; the embedding
keeps the 32-byte prefix that strncpy actually copies.) -/
def _dw_get_word (db : DB) (idx : Nat) : Option (List Char) :=
  (storedWord db idx).map (fun w => w.data.take 32)

/- ---------------------------------------------------------------------
Generation (diceware.c:363-407).
--------------------------------------------------------------------- -/

/-- diceware.c:377-382: `n = 0; for (j = 0; j < NDICE; j++) { n *= 10;
n += arc4random_uniform(MAX_DIE_ROLL) + 1; }` with NDICE = 5 and
MAX_DIE_ROLL = 6; `rs` are the raw `arc4random_uniform(6)` outputs. -/
def buildIndex (rs : List Nat) : Nat :=
  rs.foldl (fun n r => n * 10 + (r + 1)) 0

/-- The indices `dw_generate` constructs for `nwords` words, consuming
five raw dice values from the oracle per word. -/
def rollIndices (rolls : List Nat) : Nat → List Nat
  | 0 => []
  | n + 1 => buildIndex (rolls.take 5) :: rollIndices (rolls.drop 5) n

/-- The word loop of `dw_generate` (diceware.c:371-406). `wr k` tells
whether the k-th `fprintf` call succeeds (writes are modelled as atomic:
a failed write emits nothing). Each word is printed with
`fprintf(output, "%s ", word)` — the word followed by one space — and
after the loop one newline is printed. Returns the success flag and the
characters written to the output stream. -/
def genLoop (db : DB) (wr : Nat → Bool) : Nat → List Nat → Nat → List Char → Bool × List Char
  | k, _, 0, acc => if wr k then (true, acc ++ ['\n']) else (false, acc)
  | k, rolls, n + 1, acc =>
    match _dw_get_word db (buildIndex (rolls.take 5)) with
    | none => (false, acc)
    | some w =>
      if wr k then genLoop db wr (k + 1) (rolls.drop 5) n (acc ++ w ++ [' '])
      else (false, acc)

/-- `dw_generate` (diceware.c:363-407). -/
def dw_generate (db : DB) (wr : Nat → Bool) (rolls : List Nat) (nwords : Nat) : Bool × List Char :=
  genLoop db wr 0 rolls nwords []

/- ---------------------------------------------------------------------
Creation (diceware.c:239-346).
--------------------------------------------------------------------- -/

/-- Outcomes of the SQLite calls in `dw_create` that are not determined
by the database state: `sqlite3_open`, the `BEGIN TRANSACTION` exec, the
final outcome of the `END TRANSACTION` busy-retry loop, the final outcome
of the `ROLLBACK TRANSACTION` busy-retry loop, and whether
`fopen(word_path)` succeeds in `_dw_populate`. -/
structure Env where
  openOk : Bool
  beginOk : Bool
  fileOk : Bool
  endOk : Bool
  rollbackOk : Bool
deriving DecidableEq

/-- The stage at which `dw_create` failed. -/
inductive CreateStage where
  | atOpen
  | atBegin
  | atSchema
  | atPopulate
  | atRollback
  | atCommit
deriving DecidableEq

/-- Result of a `dw_create` call: the returned flag, the committed
database state visible afterwards, whether `dw_close` was called on the
handle before returning (on success the caller is expected to close), and
the stage of the failure, if any. -/
structure CreateOutcome where
  ok : Bool
  db : DB
  closed : Bool
  failedAt : Option CreateStage
deriving DecidableEq

/-- `dw_create` (diceware.c:254-327) on a database file in state `db0`.

* open failure returns at once (diceware.c:260-263);
* a failed `BEGIN TRANSACTION` returns without calling `dw_close`
  (diceware.c:268-274);
* `CREATE TABLE diceware ...` fails iff the table already exists; the
  handle is closed, and closing a connection with an open transaction
  rolls it back, so the committed state is unchanged (diceware.c:276-283);
* a populate failure triggers the `ROLLBACK TRANSACTION` retry loop; if
  the rollback succeeds the handle is closed, and if the rollback itself
  fails the function returns without closing (diceware.c:285-304);
* on populate success the `END TRANSACTION` retry loop commits; a commit
  failure closes the handle and the uncommitted transaction is discarded
  (diceware.c:305-324). -/
def dw_create (env : Env) (input : List Char) (db0 : DB) : CreateOutcome :=
  if env.openOk = false then ⟨false, db0, false, some .atOpen⟩
  else if env.beginOk = false then ⟨false, db0, false, some .atBegin⟩
  else if db0.hasTable = true then ⟨false, db0, true, some .atSchema⟩
  else if (_dw_populate env.fileOk input).2 = true then
    if env.endOk = true then ⟨true, ⟨true, (_dw_populate env.fileOk input).1⟩, false, none⟩
    else ⟨false, db0, true, some .atCommit⟩
  else if env.rollbackOk = true then ⟨false, db0, true, some .atPopulate⟩
  else ⟨false, db0, false, some .atRollback⟩

/- ---------------------------------------------------------------------
Valid diceware indices (spec §3, §4.2).
--------------------------------------------------------------------- -/

/-- An index is valid when it lies in [11111, 66666] and each of its five
decimal digits is in 1..6. -/
def validIndex (n : Nat) : Bool :=
  11111 ≤ n && n ≤ 66666 &&
  (1 ≤ n / 10000 % 10 && n / 10000 % 10 ≤ 6) &&
  (1 ≤ n / 1000 % 10 && n / 1000 % 10 ≤ 6) &&
  (1 ≤ n / 100 % 10 && n / 100 % 10 ≤ 6) &&
  (1 ≤ n / 10 % 10 && n / 10 % 10 ≤ 6) &&
  (1 ≤ n % 10 && n % 10 ≤ 6)

/-- The set of valid diceware indices. -/
def diceIndexSet : Finset Nat :=
  (Finset.range 100000).filter (fun n => validIndex n = true)

/-- The index determined by five dice digits (most significant first). -/
def digitsToIndex (t : Fin 6 × Fin 6 × Fin 6 × Fin 6 × Fin 6) : Nat :=
  (t.1.val + 1) * 10000 + (t.2.1.val + 1) * 1000 + (t.2.2.1.val + 1) * 100 +
    (t.2.2.2.1.val + 1) * 10 + (t.2.2.2.2.val + 1)

/- ---------------------------------------------------------------------
The CLI driver (src/main.c).
--------------------------------------------------------------------- -/

def EXIT_SUCCESS : Nat := 0

def EXIT_FAILURE : Nat := 1

/-- The tail of `main` (main.c:90-116): `coreOk` is the result of the
`dw_open`/`dw_create` call, `generateOk` that of `dw_generate`. The code
assigns `rc = EXIT_FAILURE` on each failure path and jumps to `main_exit`,
but `main_exit` executes `return EXIT_SUCCESS;`, so the computed `rc` is
discarded and the process exit code is `EXIT_SUCCESS` on every path. -/
def mainExitCode (coreOk : Bool) (generateOk : Bool) : Nat :=
  let _rc := if coreOk = false then EXIT_FAILURE
             else if generateOk = false then EXIT_FAILURE
             else EXIT_SUCCESS
  EXIT_SUCCESS

/- ---------------------------------------------------------------------
The spec's line-based reading of word-list parsing, for comparison
(claim C2 speaks of lines).
--------------------------------------------------------------------- -/

/-- Modelled from the spec: a LINE "matching the pattern `<integer>
<token>`" — an integer, then one token of at most 63 bytes, then nothing
but whitespace, all within the single line. -/
def lineRecord (ln : List Char) : Option (Int × String) :=
  match scanInt ln with
  | none => none
  | some (n, r1) =>
    match scanTok r1 with
    | none => none
    | some (w, r2) => if (r2.dropWhile isSpaceC).isEmpty then some (n, w) else none

/-- Records of successive lines, stopping at the first line that does not
match the pattern. -/
def lineRecordsGo : List (List Char) → List (Int × String)
  | [] => []
  | ln :: rest =>
    match lineRecord ln with
    | none => []
    | some r => r :: lineRecordsGo rest

/-- Modelled from the spec: the record stream claim C2 describes —
parsing proceeds line by line and stops at the first line that does not
match `<integer> <token>`. -/
def specLineRecords (input : List Char) : List (Int × String) :=
  lineRecordsGo (input.splitOn '\n')

/- ---------------------------------------------------------------------
Helper lemmas about the scanner.
--------------------------------------------------------------------- -/

theorem dropWhile_length_le (p : Char → Bool) (l : List Char) :
    (l.dropWhile p).length ≤ l.length := by
  induction l with
  | nil => simp
  | cons c t ih =>
    rw [List.dropWhile_cons]
    split
    · exact Nat.le_trans ih (Nat.le_succ _)
    · simp

theorem scanDigits_length {l rest : List Char} {v : Nat}
    (h : scanDigits l = some (v, rest)) : rest.length < l.length := by
  unfold scanDigits at h
  split at h
  · exact absurd h (by simp)
  · rename_i hne
    cases l with
    | nil => simp at hne
    | cons c t =>
      rw [List.takeWhile_cons] at hne
      simp only [Option.some.injEq, Prod.mk.injEq] at h
      by_cases hc : isDigitC c = true
      · rw [← h.2, List.dropWhile_cons, if_pos hc]
        exact Nat.lt_succ_of_le (dropWhile_length_le _ _)
      · rw [if_neg hc] at hne
        simp at hne
      
theorem scanInt_length {l rest : List Char} {n : Int}
    (h : scanInt l = some (n, rest)) : rest.length < l.length := by
  unfold scanInt at h
  split at h
  · exact absurd h (by simp)
  · rename_i c t hd
    have hct : t.length + 1 ≤ l.length := by
      have h2 := dropWhile_length_le isSpaceC l
      rw [hd] at h2
      simpa using h2
    split_ifs at h with h1 h2
    · cases hs : scanDigits t with
      | none => rw [hs] at h; simp at h
      | some p =>
        obtain ⟨v, r⟩ := p
        have hr := scanDigits_length hs
        rw [hs] at h
        simp only [Option.map_some', Option.some.injEq, Prod.mk.injEq] at h
        rw [← h.2]
        omega
    · cases hs : scanDigits t with
      | none => rw [hs] at h; simp at h
      | some p =>
        obtain ⟨v, r⟩ := p
        have hr := scanDigits_length hs
        rw [hs] at h
        simp only [Option.map_some', Option.some.injEq, Prod.mk.injEq] at h
        rw [← h.2]
        omega
    · cases hs : scanDigits (c :: t) with
      | none => rw [hs] at h; simp at h
      | some p =>
        obtain ⟨v, r⟩ := p
        have hr := scanDigits_length hs
        rw [hs] at h
        simp only [Option.map_some', Option.some.injEq, Prod.mk.injEq] at h
        rw [← h.2]
        simp only [List.length_cons] at hr
        omega

theorem scanTok_length {l rest : List Char} {w : String}
    (h : scanTok l = some (w, rest)) : rest.length ≤ l.length := by
  unfold scanTok at h
  split at h
  · exact absurd h (by simp)
  · rename_i c t hd
    have hct : t.length + 1 ≤ l.length := by
      have h2 := dropWhile_length_le isSpaceC l
      rw [hd] at h2
      simpa using h2
    simp only [Option.some.injEq, Prod.mk.injEq] at h
    rw [← h.2]
    have h3 := List.length_drop
      ((((c :: t).takeWhile fun a => !isSpaceC a).take 63).length) (c :: t)
    have h4 : (c :: t).length = t.length + 1 := by simp
    omega

theorem scanRecord_length {l rest : List Char} {n : Int} {w : String}
    (h : scanRecord l = some (n, w, rest)) : rest.length < l.length := by
  unfold scanRecord at h
  split at h
  · exact absurd h (by simp)
  · rename_i n1 r1 hint
    split at h
    · exact absurd h (by simp)
    · rename_i w1 r2 htok
      simp only [Option.some.injEq, Prod.mk.injEq] at h
      have h1 := scanInt_length hint
      have h2 := scanTok_length htok
      rw [← h.2.2]
      omega

/- ---------------------------------------------------------------------
The population loop factors through its record stream.
--------------------------------------------------------------------- -/

theorem populateGo_eq_processRecords :
    ∀ (fuel : Nat) (input : List Char) (rows : List Row) (count : Nat),
      input.length < fuel →
      populateGo fuel input rows count = processRecords (recordsGo fuel input) rows count := by
  intro fuel
  induction fuel with
  | zero => intro input rows count h; omega
  | succ f ih =>
    intro input rows count hlen
    rw [populateGo, recordsGo]
    cases hs : scanRecord input with
    | none => simp [processRecords]
    | some v =>
      obtain ⟨n, w, rest⟩ := v
      simp only [processRecords]
      cases hi : _dw_insert rows n w with
      | none => simp
      | some rows2 =>
        simp only
        have := scanRecord_length hs
        exact ih rest rows2 (count + 1) (by omega)

theorem populateLoop_eq_processRecords (input : List Char) (rows : List Row) (count : Nat) :
    populateLoop input rows count = processRecords (records input) rows count :=
  populateGo_eq_processRecords (input.length + 1) input rows count (Nat.lt_succ_self _)

/-- The count returned by the loop is the number of rows it appended. -/
theorem processRecords_count :
    ∀ (rs : List (Int × String)) (rows : List Row) (count : Nat),
      (processRecords rs rows count).1.length + count
        = (processRecords rs rows count).2 + rows.length := by
  intro rs
  induction rs with
  | nil => intro rows count; simp [processRecords]; omega
  | cons r rst ih =>
    intro rows count
    obtain ⟨n, w⟩ := r
    rw [processRecords]
    cases hi : _dw_insert rows n w with
    | none => simp; omega
    | some rows2 =>
      simp only
      have h2 : rows2 = rows ++ [⟨n, w⟩] := by
        unfold _dw_insert at hi
        split at hi
        · exact absurd hi (by simp)
        · simpa using hi.symm
      subst h2
      have h3 := ih (rows ++ [⟨n, w⟩]) (count + 1)
      simp only [List.length_append, List.length_cons, List.length_nil] at h3 ⊢
      omega

/-- The loop never inserts a row whose id is already present, so the ids
of the rows it produces stay pairwise distinct. -/
theorem processRecords_nodup :
    ∀ (rs : List (Int × String)) (rows : List Row) (count : Nat),
      (rows.map Row.id).Nodup →
      ((processRecords rs rows count).1.map Row.id).Nodup := by
  intro rs
  induction rs with
  | nil => intro rows count h; simpa [processRecords] using h
  | cons r rst ih =>
    intro rows count hnd
    obtain ⟨n, w⟩ := r
    rw [processRecords]
    cases hi : _dw_insert rows n w with
    | none => simpa using hnd
    | some rows2 =>
      simp only
      apply ih
      unfold _dw_insert at hi
      split at hi
      · exact absurd hi (by simp)
      · rename_i hany
        have hrows2 : rows2 = rows ++ [⟨n, w⟩] := by simpa using hi.symm
        have hnm : n ∉ rows.map Row.id := by
          intro hmem
          obtain ⟨rr, hrr, hrid⟩ := List.mem_map.mp hmem
          apply hany
          simp only [List.any_eq_true]
          exact ⟨rr, hrr, by simp [hrid]⟩
        rw [hrows2, List.map_append, List.nodup_append]
        refine ⟨hnd, by simp, ?_⟩
        intro a ha hb
        simp only [List.map_cons, List.map_nil, List.mem_singleton] at hb
        subst hb
        exact hnm ha

/- ---------------------------------------------------------------------
The set of valid diceware indices has exactly 7776 elements.
--------------------------------------------------------------------- -/

theorem mem_diceIndexSet {n : Nat} : n ∈ diceIndexSet ↔ validIndex n = true := by
  simp only [diceIndexSet, Finset.mem_filter, Finset.mem_range]
  constructor
  · exact fun h => h.2
  · intro h
    refine ⟨?_, h⟩
    simp only [validIndex, Bool.and_eq_true, decide_eq_true_eq] at h
    omega

theorem digitsToIndex_injective : Function.Injective digitsToIndex := by
  rintro ⟨a, b, c, d, e⟩ ⟨a2, b2, c2, d2, e2⟩ h
  simp only [digitsToIndex] at h
  have ha := a.isLt
  have hb := b.isLt
  have hc := c.isLt
  have hd := d.isLt
  have he := e.isLt
  have ha2 := a2.isLt
  have hb2 := b2.isLt
  have hc2 := c2.isLt
  have hd2 := d2.isLt
  have he2 := e2.isLt
  simp only [Prod.mk.injEq, Fin.ext_iff]
  omega

theorem diceIndexSet_eq_image :
    diceIndexSet = Finset.image digitsToIndex Finset.univ := by
  ext n
  rw [mem_diceIndexSet]
  simp only [Finset.mem_image, Finset.mem_univ, true_and]
  constructor
  · intro h
    simp only [validIndex, Bool.and_eq_true, decide_eq_true_eq] at h
    refine ⟨⟨⟨n / 10000 % 10 - 1, by omega⟩, ⟨n / 1000 % 10 - 1, by omega⟩,
      ⟨n / 100 % 10 - 1, by omega⟩, ⟨n / 10 % 10 - 1, by omega⟩,
      ⟨n % 10 - 1, by omega⟩⟩, ?_⟩
    simp only [digitsToIndex]
    omega
  · rintro ⟨⟨a, b, c, d, e⟩, rfl⟩
    have ha := a.isLt
    have hb := b.isLt
    have hc := c.isLt
    have hd := d.isLt
    have he := e.isLt
    simp only [digitsToIndex, validIndex, Bool.and_eq_true, decide_eq_true_eq]
    omega

theorem diceIndexSet_card : diceIndexSet.card = 7776 := by
  rw [diceIndexSet_eq_image,
    Finset.card_image_of_injective _ digitsToIndex_injective, Finset.card_univ]
  simp only [Fintype.card_prod, Fintype.card_fin]

/- ---------------------------------------------------------------------
Every index `dw_generate` constructs is a valid diceware index.
--------------------------------------------------------------------- -/

theorem buildIndex_five (a b c d e : Nat) :
    buildIndex [a, b, c, d, e]
      = (((((a + 1) * 10 + (b + 1)) * 10 + (c + 1)) * 10 + (d + 1)) * 10 + (e + 1)) := by
  simp only [buildIndex, List.foldl]
  omega

theorem rollIndices_valid :
    ∀ (N : Nat) (rolls : List Nat), (∀ r ∈ rolls, r < 6) → rolls.length = 5 * N →
      ∀ n ∈ rollIndices rolls N,
        (∃ d : Fin 5 → Nat, (∀ i, 1 ≤ d i ∧ d i ≤ 6) ∧
            n = ∑ i : Fin 5, d i * 10 ^ (4 - (i : Nat)))
        ∧ validIndex n = true := by
  intro N
  induction N with
  | zero =>
    intro rolls _ _ n hn
    simp [rollIndices] at hn
  | succ k ih =>
    intro rolls hr hlen n hn
    obtain ⟨a, b, c, d, e, rest, rfl⟩ :
        ∃ a b c d e rest, rolls = a :: b :: c :: d :: e :: rest := by
      rcases rolls with _ | ⟨a, _ | ⟨b, _ | ⟨c, _ | ⟨d, _ | ⟨e, rest⟩⟩⟩⟩⟩
      · simp only [List.length_nil] at hlen; omega
      · simp only [List.length_cons, List.length_nil] at hlen; omega
      · simp only [List.length_cons, List.length_nil] at hlen; omega
      · simp only [List.length_cons, List.length_nil] at hlen; omega
      · simp only [List.length_cons, List.length_nil] at hlen; omega
      · exact ⟨a, b, c, d, e, rest, rfl⟩
    have ha : a < 6 := hr a (by simp)
    have hb : b < 6 := hr b (by simp)
    have hc : c < 6 := hr c (by simp)
    have hd : d < 6 := hr d (by simp)
    have he : e < 6 := hr e (by simp)
    rw [rollIndices] at hn
    simp only [List.take, List.drop, List.mem_cons] at hn
    rcases hn with rfl | hn
    · constructor
      · refine ⟨fun i => [a + 1, b + 1, c + 1, d + 1, e + 1].getD (i : Nat) 0, ?_, ?_⟩
        · intro i
          fin_cases i <;> simp [List.getD] <;> omega
        · rw [Fin.sum_univ_five, buildIndex_five]
          norm_num [List.getD, show ((3 : Fin 5) : Nat) = 3 from rfl,
            show ((4 : Fin 5) : Nat) = 4 from rfl]
          omega
      · rw [buildIndex_five]
        simp only [validIndex, Bool.and_eq_true, decide_eq_true_eq]
        omega
    · refine ih rest (fun r hrm => hr r (by simp [hrm])) ?_ n hn
      simp only [List.length_cons] at hlen
      omega

/- ---------------------------------------------------------------------
Output of a successful generation.
--------------------------------------------------------------------- -/

theorem genLoop_ok (db : DB) (wr : Nat → Bool) :
    ∀ (N k : Nat) (rolls : List Nat) (acc : List Char),
      (genLoop db wr k rolls N acc).1 = true →
      (genLoop db wr k rolls N acc).2
          = acc ++ (List.flatten ((rollIndices rolls N).map
              (fun n => (_dw_get_word db n).getD [] ++ [' ']))) ++ ['\n']
        ∧ ∀ n ∈ rollIndices rolls N, (_dw_get_word db n).isSome = true := by
  intro N
  induction N with
  | zero =>
    intro k rolls acc hok
    cases hwr : wr k with
    | false => rw [genLoop, hwr] at hok; simp at hok
    | true =>
      rw [genLoop, hwr]
      simp [rollIndices]
  | succ m ih =>
    intro k rolls acc hok
    rw [genLoop] at hok
    cases hlk : _dw_get_word db (buildIndex (rolls.take 5)) with
    | none => rw [hlk] at hok; simp at hok
    | some w =>
      rw [hlk] at hok
      cases hwr : wr k with
      | false => rw [hwr] at hok; simp at hok
      | true =>
        rw [hwr] at hok
        simp only [if_pos] at hok
        obtain ⟨h1, h2⟩ := ih (k + 1) (rolls.drop 5) (acc ++ w ++ [' ']) hok
        constructor
        · rw [genLoop, hlk, hwr]
          simp only [if_pos]
          rw [h1, rollIndices]
          simp [hlk, List.append_assoc]
        · intro n hn
          rw [rollIndices] at hn
          simp only [List.mem_cons] at hn
          rcases hn with rfl | hn
          · rw [hlk]; rfl
          · exact h2 n hn

/- ---------------------------------------------------------------------
Claim C1.
--------------------------------------------------------------------- -/

/-- Claim C1, counterexample. The claim says that after ANY failed
`Create` the backing store contains zero queryable entries. But on a
database path whose file already holds a populated `diceware` table,
`dw_create` fails (at `CREATE TABLE`) and the store still holds its
previous entries, which remain queryable: with every environmental call
succeeding and an empty word list, `dw_create` on a store already
containing the row (11111, "abc") fails while `queryable` is nonempty. -/
theorem c1_counterexample :
    (dw_create ⟨true, true, true, true, true⟩ [] ⟨true, [⟨11111, "abc"⟩]⟩).ok = false
    ∧ queryable (dw_create ⟨true, true, true, true, true⟩ [] ⟨true, [⟨11111, "abc"⟩]⟩).db
        ≠ [] := by
  decide

/-- Claim C1, amended: if `dw_create` fails at any stage, the queryable
entries of the backing store are exactly those before the call (so zero
when the path was fresh) — no entry inserted by this `Create` is ever
visible; and after a successful `dw_create` the table holds exactly the
rows the population loop successfully inserted: at least 7776 of them,
with pairwise-distinct indices. -/
theorem c1_create_atomic (env : Env) (input : List Char) (db0 : DB) :
    ((dw_create env input db0).ok = false →
      queryable (dw_create env input db0).db = queryable db0)
    ∧ ((dw_create env input db0).ok = true →
      (dw_create env input db0).db.hasTable = true
      ∧ (dw_create env input db0).db.rows = (_dw_populate true input).1
      ∧ 7776 ≤ (dw_create env input db0).db.rows.length
      ∧ ((dw_create env input db0).db.rows.map Row.id).Nodup) := by
  unfold dw_create
  split_ifs with h1 h2 h3 h4 h5 h6
  · simp
  · simp
  · simp
  · cases hf : env.fileOk with
    | false => simp [_dw_populate, hf] at h4
    | true =>
      constructor
      · intro h; simp at h
      · intro _
        have h6 : 7776 ≤ (populateLoop input [] 0).2 := by
          simpa [_dw_populate, hf] using h4
        have h7 := populateLoop_eq_processRecords input [] 0
        rw [h7] at h6
        have h8 := processRecords_count (records input) [] 0
        simp only [List.length_nil, Nat.add_zero] at h8
        have h9 := processRecords_nodup (records input) [] 0 (by simp)
        refine ⟨rfl, rfl, ?_, ?_⟩
        · simp only [_dw_populate, Bool.not_true, Bool.false_eq_true, if_false, h7]
          omega
        · simp only [_dw_populate, Bool.not_true, Bool.false_eq_true, if_false, h7]
          exact h9
  · simp
  · simp
  · simp

/-- Claim C1 amended, witness: a failed creation (empty word list) on a
fresh store leaves the queryable entries unchanged. -/
theorem c1_create_atomic_witness :
    queryable (dw_create ⟨true, true, true, true, true⟩ [] ⟨false, []⟩).db
      = queryable ⟨false, []⟩ :=
  (c1_create_atomic ⟨true, true, true, true, true⟩ [] ⟨false, []⟩).1 (by decide)

/- ---------------------------------------------------------------------
Claim C2.
--------------------------------------------------------------------- -/

/-- Claim C2, counterexample. The claim says parsing stops at the first
LINE that does not match `<integer> <token>`. On the input consisting of
the line "11111" followed by the line "w", no line matches the pattern,
so the line-based reading parses zero records; yet `fscanf("%d %63s")`
skips the newline like any other whitespace and the code parses (and
inserts) the record (11111, "w") spanning the two lines. -/
theorem c2_counterexample :
    specLineRecords ("11111\nw".data) = []
    ∧ records ("11111\nw".data) = [(11111, "w")]
    ∧ populateLoop ("11111\nw".data) [] 0 = ([⟨11111, "w"⟩], 1) := by
  decide

/-- Claim C2, amended: `Create` parses whitespace-separated
`<integer> <token>` records eagerly in order — a record's integer and
token may be separated by any whitespace, including a line break, so the
unit of parsing is not the line — stopping at the first point where the
input fails to yield a record or an insertion fails (malformed input is
not skipped), and the population step succeeds if and only if at least
7776 records were successfully parsed and inserted before the stop. The
interleaved loop equals insertion of the eager record stream `records`,
and the count it checks against 7776 is the number of rows inserted. -/
theorem c2_populate_eager (input : List Char) :
    populateLoop input [] 0 = processRecords (records input) [] 0
    ∧ ((_dw_populate true input).2 = true
        ↔ 7776 ≤ (processRecords (records input) [] 0).2)
    ∧ (processRecords (records input) [] 0).2
        = (processRecords (records input) [] 0).1.length := by
  have h7 := populateLoop_eq_processRecords input [] 0
  have h8 := processRecords_count (records input) [] 0
  simp only [List.length_nil, Nat.add_zero] at h8
  refine ⟨h7, ?_, by omega⟩
  simp [_dw_populate, h7]

/- ---------------------------------------------------------------------
Claim C3.
--------------------------------------------------------------------- -/

/-- Claim C3, counterexample. The claim says a successful
`Generate(store, output, N)` writes the N words separated by single
spaces and then one newline. The code prints `"%s "` for every word —
including the last — so a single space precedes the newline: with one
word "abc" the output is "abc \n", not "abc\n". -/
theorem c3_counterexample :
    dw_generate ⟨true, [⟨11111, "abc"⟩]⟩ (fun _ => true) [0, 0, 0, 0, 0] 1
      = (true, "abc \n".data)
    ∧ "abc \n".data ≠ List.intercalate [' '] ["abc".data] ++ ['\n'] := by
  decide

/-- Claim C3, amended: a successful `dw_generate(store, output, N)`
writes, for each of the N rolled indices in order, the looked-up word
followed by one space (so a space also separates the last word from the
newline), then one trailing newline; each emitted word is the word stored
at the index that was actually rolled, truncated to the 32-byte lookup
buffer (hence equal to the stored word whenever that word is shorter than
32 bytes). -/
theorem c3_generate_output (db : DB) (wr : Nat → Bool) (rolls : List Nat) (N : Nat)
    (hok : (dw_generate db wr rolls N).1 = true) :
    (dw_generate db wr rolls N).2
      = List.flatten ((rollIndices rolls N).map
          (fun n => (_dw_get_word db n).getD [] ++ [' '])) ++ ['\n']
    ∧ ∀ n ∈ rollIndices rolls N,
        ∃ w, storedWord db n = some w ∧ _dw_get_word db n = some (w.data.take 32) := by
  obtain ⟨h1, h2⟩ := genLoop_ok db wr N 0 rolls [] hok
  refine ⟨by simpa using h1, ?_⟩
  intro n hn
  have h3 := h2 n hn
  unfold _dw_get_word at h3 ⊢
  cases hs : storedWord db n with
  | none => rw [hs] at h3; simp at h3
  | some w => exact ⟨w, rfl, rfl⟩

/-- Claim C3 amended, witness: generating one word from a store holding
(11111, "ab") with all five dice showing 1 emits "ab " and a newline. -/
theorem c3_generate_output_witness :
    (dw_generate ⟨true, [⟨11111, "ab"⟩]⟩ (fun _ => true) [0, 0, 0, 0, 0] 1).2
      = List.flatten ((rollIndices [0, 0, 0, 0, 0] 1).map
          (fun n => (_dw_get_word ⟨true, [⟨11111, "ab"⟩]⟩ n).getD [] ++ [' '])) ++ ['\n']
    ∧ ∀ n ∈ rollIndices [0, 0, 0, 0, 0] 1,
        ∃ w, storedWord ⟨true, [⟨11111, "ab"⟩]⟩ n = some w
          ∧ _dw_get_word ⟨true, [⟨11111, "ab"⟩]⟩ n = some (w.data.take 32) :=
  c3_generate_output ⟨true, [⟨11111, "ab"⟩]⟩ (fun _ => true) [0, 0, 0, 0, 0] 1 (by decide)

/- ---------------------------------------------------------------------
Claim C4.
--------------------------------------------------------------------- -/

/-- Claim C4: every index `dw_generate` constructs from raw dice values
(`arc4random_uniform(6)` outputs, each < 6) equals
`Σ digit_i * 10^(4-i)` for digits in {1,...,6} with the first roll most
significant, lies in [11111, 66666], and belongs to the set of exactly
7776 naturals whose five decimal digits are all in {1,...,6}. -/
theorem c4_roll_indices (rolls : List Nat) (N : Nat)
    (hr : ∀ r ∈ rolls, r < 6) (hlen : rolls.length = 5 * N) :
    (∀ n ∈ rollIndices rolls N,
      (∃ d : Fin 5 → Nat, (∀ i, 1 ≤ d i ∧ d i ≤ 6) ∧
          n = ∑ i : Fin 5, d i * 10 ^ (4 - (i : Nat)))
      ∧ 11111 ≤ n ∧ n ≤ 66666 ∧ n ∈ diceIndexSet)
    ∧ diceIndexSet.card = 7776 := by
  refine ⟨?_, diceIndexSet_card⟩
  intro n hn
  obtain ⟨hd, hv⟩ := rollIndices_valid N rolls hr hlen n hn
  refine ⟨hd, ?_, ?_, mem_diceIndexSet.mpr hv⟩ <;>
    (simp only [validIndex, Bool.and_eq_true, decide_eq_true_eq] at hv; omega)

/-- Claim C4, witness: the dice values 0,1,2,3,4 yield the single index
12345, which has the claimed properties. -/
theorem c4_roll_indices_witness :
    (∀ n ∈ rollIndices [0, 1, 2, 3, 4] 1,
      (∃ d : Fin 5 → Nat, (∀ i, 1 ≤ d i ∧ d i ≤ 6) ∧
          n = ∑ i : Fin 5, d i * 10 ^ (4 - (i : Nat)))
      ∧ 11111 ≤ n ∧ n ≤ 66666 ∧ n ∈ diceIndexSet)
    ∧ diceIndexSet.card = 7776 :=
  c4_roll_indices [0, 1, 2, 3, 4] 1 (by decide) (by decide)

/- ---------------------------------------------------------------------
Claim C5.
--------------------------------------------------------------------- -/

/-- Claim C5 (code bug): the claim — matching the code's evident intent —
says a failed core operation makes the process exit with a failure code,
but `main` ends with `return EXIT_SUCCESS;` after merely assigning
`rc = EXIT_FAILURE` on its failure paths, so the exit code is
`EXIT_SUCCESS` whether the open/create step or the generate step fails. -/
theorem c5_exit_code_bug :
    mainExitCode false true = EXIT_SUCCESS
    ∧ mainExitCode true false = EXIT_SUCCESS
    ∧ EXIT_SUCCESS ≠ EXIT_FAILURE := by
  decide

/- ---------------------------------------------------------------------
Claim C6.
--------------------------------------------------------------------- -/

/-- Claim C6, counterexample. Neither `_dw_populate` nor `_dw_get_word`
validates indices, so a store populated from a word list carrying the
record (99999, "zzz") returns the word "zzz" for the invalid index 99999
— the claim's "never returns a word" fails on such a store. -/
theorem c6_counterexample :
    validIndex 99999 = false
    ∧ _dw_get_word ⟨true, [⟨99999, "zzz"⟩]⟩ 99999 = some "zzz".data := by
  decide

/-- Claim C6, amended: on every store all of whose entries carry valid
diceware indices (the spec's data-model invariant; `Create` itself does
not enforce it), looking up an index outside [11111, 66666] or with a
digit outside 1..6 matches no row — the query ends with `SQLITE_DONE`,
reported as "incomplete database" (the NotFoundError) — and never
produces a word; the code performs no rejection before querying. -/
theorem c6_lookup_invalid (db : DB)
    (hvalid : ∀ r ∈ queryable db, 0 ≤ r.id ∧ validIndex r.id.toNat = true)
    (idx : Nat) (hidx : validIndex idx = false) :
    storedWord db idx = none ∧ _dw_get_word db idx = none := by
  have hs : storedWord db idx = none := by
    unfold storedWord
    cases hf : (queryable db).find? (fun r => r.id == (idx : Int)) with
    | none => rfl
    | some r =>
      exfalso
      have hmem := List.mem_of_find?_eq_some hf
      have hpred := List.find?_some hf
      simp only [beq_iff_eq] at hpred
      have hv := (hvalid r hmem).2
      rw [hpred] at hv
      simp only [Int.toNat_natCast] at hv
      rw [hv] at hidx
      simp at hidx
  exact ⟨hs, by unfold _dw_get_word; rw [hs]; rfl⟩

/-- Claim C6 amended, witness: on a store holding only the valid index
11111, looking up the invalid index 99998 finds nothing. -/
theorem c6_lookup_invalid_witness :
    storedWord ⟨true, [⟨11111, "aa"⟩]⟩ 99998 = none
    ∧ _dw_get_word ⟨true, [⟨11111, "aa"⟩]⟩ 99998 = none :=
  c6_lookup_invalid ⟨true, [⟨11111, "aa"⟩]⟩ (by decide) 99998 (by decide)

/- ---------------------------------------------------------------------
Claim C7.
--------------------------------------------------------------------- -/

/-- Claim C7, counterexample. The claim says every failure path of
`dw_create` after a successful internal open releases the store. But
when `BEGIN TRANSACTION` fails (diceware.c:268-274) the function returns
-1 without calling `dw_close`: with open succeeding and begin failing,
the outcome is a failure with the store not closed. -/
theorem c7_counterexample :
    (dw_create ⟨true, false, true, true, true⟩ [] ⟨false, []⟩).ok = false
    ∧ (dw_create ⟨true, false, true, true, true⟩ [] ⟨false, []⟩).closed = false := by
  decide

/-- Claim C7, amended: on every failure path of `dw_create` after its
internal open succeeded — except when `BEGIN TRANSACTION` itself fails,
and except when the rollback after a failed population itself fails, on
which paths the handle is leaked — the store is released (the equivalent
of an implicit `dw_close`) before the error is returned. -/
theorem c7_close_on_failure (env : Env) (input : List Char) (db0 : DB)
    (hopen : env.openOk = true) (hbegin : env.beginOk = true)
    (hrb : env.rollbackOk = true)
    (hfail : (dw_create env input db0).ok = false) :
    (dw_create env input db0).closed = true := by
  unfold dw_create at hfail ⊢
  split_ifs at hfail ⊢ <;> simp_all

/-- Claim C7 amended, witness: a creation that fails because the word
list is empty (population inserts 0 < 7776 records), with the rollback
succeeding, closes the store before returning. -/
theorem c7_close_on_failure_witness :
    (dw_create ⟨true, true, true, true, true⟩ [] ⟨false, []⟩).closed = true :=
  c7_close_on_failure ⟨true, true, true, true, true⟩ [] ⟨false, []⟩ rfl rfl rfl (by decide)

/- ---------------------------------------------------------------------
Claim C8.
--------------------------------------------------------------------- -/

theorem stepRetry_replicate_busy (k : Nat) (l : List StepRc) :
    stepRetry (List.replicate k StepRc.busy ++ l) = stepRetry l := by
  induction k with
  | zero => simp
  | succ j ih =>
    simp only [List.replicate_succ, List.cons_append, stepRetry] at ih ⊢
    rw [List.find?_cons_of_neg _ (by simp)]
    exact ih

/-- Claim C8: the `do { rc = sqlite3_step(...); } while (rc ==
SQLITE_BUSY)` loops of `_dw_get_word` and `_dw_insert` never surface a
busy result: whatever the backend's result sequence, the loop's value is
never SQLITE_BUSY; any finite burst of busy results is retried through to
the first decisive result (a success or a non-retryable error); a backend
that stays busy forever keeps the loop running (no result) rather than
erroring; and for a `GET_WORD` query the retried outcome is the row/done
result determined by the store, independent of how often it was busy. -/
theorem c8_busy_retry (steps : List StepRc) (k : Nat) (r : StepRc) (rest : List StepRc)
    (hr : r ≠ StepRc.busy) :
    stepRetry steps ≠ some StepRc.busy
    ∧ stepRetry (List.replicate k StepRc.busy ++ r :: rest) = some r
    ∧ stepRetry (List.replicate k StepRc.busy) = none
    ∧ (∀ (db : DB) (idx : Nat),
        stepRetry (List.replicate k StepRc.busy ++ [lookupStep db idx])
          = some (lookupStep db idx)) := by
  refine ⟨?_, ?_, ?_, ?_⟩
  · intro h
    have := List.find?_some h
    simp at this
  · rw [stepRetry_replicate_busy]
    unfold stepRetry
    rw [List.find?_cons_of_pos _ (by simp [hr])]
  · have h0 : stepRetry ([] : List StepRc) = none := rfl
    have := stepRetry_replicate_busy k []
    rw [List.append_nil] at this
    rw [this, h0]
  · intro db idx
    rw [stepRetry_replicate_busy]
    have : lookupStep db idx ≠ StepRc.busy := by
      unfold lookupStep
      split <;> simp
    unfold stepRetry
    rw [List.find?_cons_of_pos _ (by simp [this])]

/-- Claim C8, witness: two busy results followed by a row result retry
through to the row result. -/
theorem c8_busy_retry_witness :
    stepRetry [StepRc.busy] ≠ some StepRc.busy
    ∧ stepRetry (List.replicate 2 StepRc.busy ++ StepRc.row :: []) = some StepRc.row
    ∧ stepRetry (List.replicate 2 StepRc.busy) = none
    ∧ (∀ (db : DB) (idx : Nat),
        stepRetry (List.replicate 2 StepRc.busy ++ [lookupStep db idx])
          = some (lookupStep db idx)) :=
  c8_busy_retry [StepRc.busy] 2 StepRc.row [] (by decide)

/- ---------------------------------------------------------------------
Claim C9.
--------------------------------------------------------------------- -/

/-- Claim C9: for every store, `dw_generate(store, output, 0)` writes
exactly one newline character and nothing else and returns success,
provided the (single) write succeeds. -/
theorem c9_generate_zero (db : DB) (wr : Nat → Bool) (rolls : List Nat)
    (hw : wr 0 = true) :
    dw_generate db wr rolls 0 = (true, ['\n']) := by
  unfold dw_generate
  rw [genLoop, hw]
  simp

/-- Claim C9, witness: with a fault-free output stream, generating zero
words from an empty store emits exactly one newline and succeeds. -/
theorem c9_generate_zero_witness :
    dw_generate ⟨false, []⟩ (fun _ => true) [] 0 = (true, ['\n']) :=
  c9_generate_zero ⟨false, []⟩ (fun _ => true) [] rfl

/- ---------------------------------------------------------------------
Claim C10.
--------------------------------------------------------------------- -/

/-- Claim C10: calling `dw_create` on a database path whose file already
contains the `diceware` table (with open and begin succeeding, as on a
path where a previous create succeeded) fails at schema creation
(`CREATE TABLE diceware` errors because the table exists), closes the
store, and leaves the committed database — hence every previously stored
entry — unchanged. -/
theorem c10_create_existing (env : Env) (input : List Char) (db0 : DB)
    (hopen : env.openOk = true) (hbegin : env.beginOk = true)
    (htab : db0.hasTable = true) :
    dw_create env input db0 = ⟨false, db0, true, some CreateStage.atSchema⟩ := by
  unfold dw_create
  rw [hopen, hbegin, htab]
  simp

/-- Claim C10, witness: creating over a store that already holds the
table with the row (11111, "abc") fails at schema creation, closes, and
preserves the store. -/
theorem c10_create_existing_witness :
    dw_create ⟨true, true, true, true, true⟩ [] ⟨true, [⟨11111, "abc"⟩]⟩
      = ⟨false, ⟨true, [⟨11111, "abc"⟩]⟩, true, some CreateStage.atSchema⟩ :=
  c10_create_existing ⟨true, true, true, true, true⟩ [] ⟨true, [⟨11111, "abc"⟩]⟩ rfl rfl rfl
